import Mathlib

/-!
Verification of the helper2 matching service (cmd/helper2/main.go, first
iteration of the file, which the specification's section references point at).

The Go program stores caregiver and patient profiles keyed by email in a
relational store, extracts tool-call arguments from an external model's JSON
payloads, and matches patients to caregivers by location substring and budget.
This file gives a shallow embedding of the data model and of the operations
`GetArguments`, `getStringArg`, `getFloatArg`, `StoreCaregiver`,
`StorePatient`, `FindMatchingCaregivers`, `FindMatchingPatients`,
`BuildDynamicQuery`, `ExecuteDynamicQuery` and `handleOpenAIResponse`, and
proves or refutes the specification's claims about them.

Modelling conventions:
* Go `time.Time` timestamps are modelled as `Nat`; `time.Now()` becomes an
  explicit `now` parameter.
* Go `float64` is modelled as `ℚ`: the numeric operations the program performs
  (decoding, `strconv.ParseFloat`, comparisons) are exact at the magnitudes the
  program handles, so rationals are a faithful abstraction and keep every
  definition computable.
* `encoding/json` decoding of a dynamic value (`interface{}`) is modelled by a
  fuel-based JSON parser producing `GoVal`; Go stores every JSON number as
  `float64`, which the parser mirrors with `GoVal.vNum`.  The `GoVal.vInt` and
  `GoVal.vF32` constructors model Go `int` / `float32` values that can appear
  in hand-built argument maps (the `getFloatArg` switch handles them).
* Database tables are lists of rows; SQL `WHERE` is `List.filter`, `ORDER BY`
  is `List.insertionSort`, and the store itself never fails (the Go error
  branches for I/O failure are unreachable in the pure model).
* SQL `LIKE` is modelled with its standard semantics: `%` matches any
  sequence, `_` matches exactly one character, every other pattern character
  matches itself.
-/

/-! ### Dynamic JSON / Go values -/

/-- A dynamic Go value as produced by `encoding/json` unmarshalling into
`interface{}` (`vNull`, `vBool`, `vNum`, `vStr`, `vArr`, `vObj`), extended
with the Go `int` and `float32` cases that `getFloatArg` also switches on
(those never arise from JSON decoding, only from hand-built maps). -/
inductive GoVal where
  | vNull
  | vBool (b : Bool)
  | vNum (q : ℚ)
  | vInt (n : ℤ)
  | vF32 (q : ℚ)
  | vStr (s : String)
  | vArr (elems : List GoVal)
  | vObj (fields : List (String × GoVal))
deriving Repr

/-- Association-list lookup, mirroring Go map indexing `args[key]`. -/
def lookupKV (kvs : List (String × GoVal)) (key : String) : Option GoVal :=
  match kvs with
  | [] => none
  | (k, v) :: t => if k = key then some v else lookupKV t key

/-- Insert-or-replace, mirroring Go map assignment (a duplicate JSON object
key overwrites the earlier one, as `encoding/json` does). -/
def insKV (kvs : List (String × GoVal)) (key : String) (v : GoVal) :
    List (String × GoVal) :=
  match kvs with
  | [] => [(key, v)]
  | (k, w) :: t => if k = key then (k, v) :: t else (k, w) :: insKV t key v

/-! ### A small JSON parser (model of `encoding/json` decoding)

Fuel-based so that every definition is structurally recursive and reduces in
the kernel.  Restrictions against real `encoding/json` that no claim touches:
the no-leading-zero rule for numbers is not enforced, and `\u` escapes do not
combine surrogate pairs. -/

/-- Skip JSON whitespace. -/
def skipWs (cs : List Char) : List Char :=
  match cs with
  | c :: t => if c = ' ' ∨ c = '\t' ∨ c = '\n' ∨ c = '\r' then skipWs t else cs
  | [] => []

/-- Decimal digit test. -/
def isDig (c : Char) : Bool := '0' ≤ c && c ≤ '9'

/-- Hexadecimal digit value. -/
def hexVal (c : Char) : Option Nat :=
  if '0' ≤ c ∧ c ≤ '9' then some (c.toNat - '0'.toNat)
  else if 'a' ≤ c ∧ c ≤ 'f' then some (c.toNat - 'a'.toNat + 10)
  else if 'A' ≤ c ∧ c ≤ 'F' then some (c.toNat - 'A'.toNat + 10)
  else none

/-- Parse the body of a JSON string (after the opening quote), accumulating
characters; returns the string and the input after the closing quote. -/
def strBody (acc : List Char) (cs : List Char) : Option (String × List Char) :=
  match cs with
  | [] => none
  | c :: t =>
    if c = '"' then some (⟨acc.reverse⟩, t)
    else if c = '\\' then
      match t with
      | [] => none
      | e :: t' =>
        if e = '"' then strBody ('"' :: acc) t'
        else if e = '\\' then strBody ('\\' :: acc) t'
        else if e = '/' then strBody ('/' :: acc) t'
        else if e = 'n' then strBody ('\n' :: acc) t'
        else if e = 't' then strBody ('\t' :: acc) t'
        else if e = 'r' then strBody ('\r' :: acc) t'
        else if e = 'b' then strBody ('\x08' :: acc) t'
        else if e = 'f' then strBody ('\x0c' :: acc) t'
        else if e = 'u' then
          match t' with
          | h1 :: h2 :: h3 :: h4 :: t'' =>
            match hexVal h1, hexVal h2, hexVal h3, hexVal h4 with
            | some a, some b, some c3, some d =>
              strBody (Char.ofNat (((a * 16 + b) * 16 + c3) * 16 + d) :: acc) t''
            | _, _, _, _ => none
          | _ => none
        else none
      else strBody (c :: acc) t

/-- Parse a JSON string including its opening quote. -/
def parseJString (cs : List Char) : Option (String × List Char) :=
  match cs with
  | '"' :: t => strBody [] t
  | _ => none

/-- Numeric value of a digit list. -/
def digitsVal (ds : List Char) : Nat :=
  ds.foldl (fun a c => a * 10 + (c.toNat - '0'.toNat)) 0

/-- The rational denoted by sign, integer digits, fraction digits and an
optional signed exponent.  The fraction-free, exponent-free case is written
as a bare cast — the same value the general formula gives, but in a form the
kernel evaluates directly. -/
def mkJNum (neg : Bool) (ip fp : List Char) (ex : Option (Bool × List Char)) : ℚ :=
  match ex with
  | none =>
    if fp.isEmpty then
      if neg then -(digitsVal ip : ℚ) else (digitsVal ip : ℚ)
    else
      let mant : ℚ := (digitsVal ip : ℚ) + (digitsVal fp : ℚ) / (10 ^ fp.length)
      if neg then -mant else mant
  | some (eneg, ed) =>
    let mant : ℚ := (digitsVal ip : ℚ) + (digitsVal fp : ℚ) / (10 ^ fp.length)
    let e : ℤ := if eneg then -(digitsVal ed : ℤ) else (digitsVal ed : ℤ)
    let q := mant * (10 : ℚ) ^ e
    if neg then -q else q

/-- Parse a JSON number into a rational. -/
def parseJNumber (cs : List Char) : Option (ℚ × List Char) :=
  let (neg, cs1) := match cs with
    | '-' :: t => (true, t)
    | _ => (false, cs)
  let ip := cs1.takeWhile isDig
  if ip.isEmpty then none
  else
    let cs2 := cs1.drop ip.length
    let (fp, cs3, okF) := match cs2 with
      | '.' :: t =>
        let f := t.takeWhile isDig
        (f, t.drop f.length, !f.isEmpty)
      | _ => ([], cs2, true)
    if !okF then none
    else
      match cs3 with
      | e :: t =>
        if e = 'e' ∨ e = 'E' then
          let (eneg, t1) := match t with
            | '-' :: t' => (true, t')
            | '+' :: t' => (false, t')
            | _ => (false, t)
          let ed := t1.takeWhile isDig
          if ed.isEmpty then none
          else some (mkJNum neg ip fp (some (eneg, ed)), t1.drop ed.length)
        else some (mkJNum neg ip fp none, cs3)
      | [] => some (mkJNum neg ip fp none, cs3)

/-- Parser mode: a single value, the tail of an array after its first
element, or the tail of an object after its first member. -/
inductive JMode where
  | value
  | arrTail (acc : List GoVal)
  | objTail (acc : List (String × GoVal))

/-- One fuel-indexed parsing step; `jparse` instantiates the fuel. -/
def jparse1 : Nat → JMode → List Char → Option (GoVal × List Char)
  | 0, _, _ => none
  | fuel + 1, JMode.value, cs =>
    match skipWs cs with
    | [] => none
    | c :: rest =>
      if c = '\x7b' then
        match skipWs rest with
        | '\x7d' :: rest' => some (GoVal.vObj [], rest')
        | rest1 =>
          match parseJString rest1 with
          | none => none
          | some (k, r1) =>
            match skipWs r1 with
            | ':' :: r2 =>
              match jparse1 fuel JMode.value r2 with
              | none => none
              | some (v, r3) => jparse1 fuel (JMode.objTail (insKV [] k v)) r3
            | _ => none
      else if c = '[' then
        match skipWs rest with
        | ']' :: rest' => some (GoVal.vArr [], rest')
        | rest1 =>
          match jparse1 fuel JMode.value rest1 with
          | none => none
          | some (v, r1) => jparse1 fuel (JMode.arrTail [v]) r1
      else if c = '"' then
        match strBody [] rest with
        | none => none
        | some (s, r1) => some (GoVal.vStr s, r1)
      else if c = 't' then
        match rest with
        | 'r' :: 'u' :: 'e' :: r1 => some (GoVal.vBool true, r1)
        | _ => none
      else if c = 'f' then
        match rest with
        | 'a' :: 'l' :: 's' :: 'e' :: r1 => some (GoVal.vBool false, r1)
        | _ => none
      else if c = 'n' then
        match rest with
        | 'u' :: 'l' :: 'l' :: r1 => some (GoVal.vNull, r1)
        | _ => none
      else
        match parseJNumber (c :: rest) with
        | none => none
        | some (q, r1) => some (GoVal.vNum q, r1)
  | fuel + 1, JMode.arrTail acc, cs =>
    match skipWs cs with
    | ']' :: rest => some (GoVal.vArr acc, rest)
    | ',' :: rest =>
      match jparse1 fuel JMode.value rest with
      | none => none
      | some (v, r1) => jparse1 fuel (JMode.arrTail (acc ++ [v])) r1
    | _ => none
  | fuel + 1, JMode.objTail acc, cs =>
    match skipWs cs with
    | '\x7d' :: rest => some (GoVal.vObj acc, rest)
    | ',' :: rest =>
      match parseJString (skipWs rest) with
      | none => none
      | some (k, r1) =>
        match skipWs r1 with
        | ':' :: r2 =>
          match jparse1 fuel JMode.value r2 with
          | none => none
          | some (v, r3) => jparse1 fuel (JMode.objTail (insKV acc k v)) r3
        | _ => none
    | _ => none

/-- Parse a complete JSON document (model of `json.Unmarshal` input
validation: trailing content other than whitespace is an error). -/
def jparse (s : String) : Option GoVal :=
  match jparse1 (s.length + 1) JMode.value s.toList with
  | some (v, rest) => if (skipWs rest).isEmpty then some v else none
  | none => none

/-! ### Tool-call extraction layer -/

/-- The second decoding stage of `GetArguments`: the contents of a
double-encoded string, decoded as a JSON object. -/
def getArgumentsFromStr (s : String) : Except String (List (String × GoVal)) :=
  match jparse s with
  | some (GoVal.vObj kvs) => Except.ok kvs
  | some GoVal.vNull => Except.ok []
  | _ => Except.error "failed to parse string arguments"

/-- Model of `FunctionCall.GetArguments` (main.go, first iteration): try to
decode the raw payload as a JSON object; if that fails, decode it as a JSON
string and decode the string contents as a JSON object.  `json.Unmarshal` of
the literal `null` into a Go map succeeds and leaves the map empty, which the
`vNull` rows mirror. -/
def GetArguments (raw : String) : Except String (List (String × GoVal)) :=
  match jparse raw with
  | some (GoVal.vObj kvs) => Except.ok kvs
  | some GoVal.vNull => Except.ok []
  | some (GoVal.vStr s) => getArgumentsFromStr s
  | _ => Except.error "failed to parse arguments"

/-- Model of `getStringArg`: a present, non-nil string value is returned,
anything else falls back to the default. -/
def getStringArg (args : List (String × GoVal)) (key : String)
    (defaultValue : String) : String :=
  match lookupKV args key with
  | some (GoVal.vStr s) => s
  | _ => defaultValue

/-- Model of `strconv.ParseFloat` (base-10 forms; the `Inf`/`NaN`/hex-float
special forms are not modelled — no claim mentions them).  The whole string
must be consumed, at least one digit must be present. -/
def parseGoFloat (s : String) : Option ℚ :=
  let cs := s.toList
  let (neg, cs1) := match cs with
    | '-' :: t => (true, t)
    | '+' :: t => (false, t)
    | _ => (false, cs)
  let ip := cs1.takeWhile isDig
  let cs2 := cs1.drop ip.length
  let (fp, cs3) := match cs2 with
    | '.' :: t => (t.takeWhile isDig, t.drop (t.takeWhile isDig).length)
    | _ => ([], cs2)
  if ip.isEmpty ∧ fp.isEmpty then none
  else
    match cs3 with
    | [] => some (mkJNum neg ip fp none)
    | e :: t =>
      if e = 'e' ∨ e = 'E' then
        let (eneg, t1) := match t with
          | '-' :: t' => (true, t')
          | '+' :: t' => (false, t')
          | _ => (false, t)
        let ed := t1.takeWhile isDig
        if ed.isEmpty ∨ !(t1.drop ed.length).isEmpty then none
        else some (mkJNum neg ip fp (some (eneg, ed)))
      else none

/-- Model of `getFloatArg`: numeric Go values (`float64`, `float32`, `int`)
are returned as 64-bit floats, a string is run through
`strconv.ParseFloat`, everything else (including nil and a parse failure)
yields the caller-supplied default. -/
def getFloatArg (args : List (String × GoVal)) (key : String)
    (defaultValue : ℚ) : ℚ :=
  match lookupKV args key with
  | some (GoVal.vNum q) => q
  | some (GoVal.vF32 q) => q
  | some (GoVal.vInt n) => (n : ℚ)
  | some (GoVal.vStr s) =>
    match parseGoFloat s with
    | some f => f
    | none => defaultValue
  | _ => defaultValue

/-! ### Entity store data model -/

/-- A row of the `caregivers` table (struct `Caregiver`). -/
structure CaregiverRow where
  email : String
  name : String
  experience : String
  location : String
  availability : String
  specializations : String
  rate : ℚ
  certifications : String
  createdAt : Nat
deriving Repr, DecidableEq

/-- A row of the `patients` table (struct `Patient`). -/
structure PatientRow where
  email : String
  name : String
  careNeeds : String
  location : String
  scheduleRequirements : String
  budget : ℚ
  specialRequirements : String
  phoneNumber : String
  createdAt : Nat
deriving Repr, DecidableEq

/-- A row of the `skills` table (struct `Skill`). -/
structure SkillRow where
  email : String
  skill : String
  createdAt : Nat
deriving Repr, DecidableEq

/-- A row of the `chat_history` table. -/
structure ChatRow where
  email : String
  role : String
  content : String
  createdAt : Nat
  recipient : String
deriving Repr, DecidableEq

/-- The store: the tables the modelled operations touch. -/
structure AppDB where
  caregivers : List CaregiverRow
  patients : List PatientRow
  skills : List SkillRow
  chatHistory : List ChatRow
deriving Repr, DecidableEq

/-- The empty store. -/
def emptyDB : AppDB := ⟨[], [], [], []⟩

/-- Model of `App.StoreCaregiver`: check existence by email; if a row exists,
update every mutable column (the `UPDATE` statement does not set
`created_at`); otherwise insert with `created_at = now`. -/
def StoreCaregiver (db : AppDB) (c : CaregiverRow) (now : Nat) : AppDB :=
  if db.caregivers.any (fun r => r.email = c.email) then
    { db with caregivers := db.caregivers.map (fun r =>
        if r.email = c.email then
          { r with name := c.name, experience := c.experience,
                   location := c.location, availability := c.availability,
                   specializations := c.specializations, rate := c.rate,
                   certifications := c.certifications }
        else r) }
  else
    { db with caregivers := db.caregivers ++ [{ c with createdAt := now }] }

/-- Model of `App.StorePatient`: same upsert shape as `StoreCaregiver`; the
`UPDATE` statement does not set `created_at`. -/
def StorePatient (db : AppDB) (p : PatientRow) (now : Nat) : AppDB :=
  if db.patients.any (fun r => r.email = p.email) then
    { db with patients := db.patients.map (fun r =>
        if r.email = p.email then
          { r with name := p.name, careNeeds := p.careNeeds,
                   location := p.location,
                   scheduleRequirements := p.scheduleRequirements,
                   budget := p.budget,
                   specialRequirements := p.specialRequirements,
                   phoneNumber := p.phoneNumber }
        else r) }
  else
    { db with patients := db.patients ++ [{ p with createdAt := now }] }

/-- Model of `App.GetSkills`. -/
def GetSkills (db : AppDB) (email : String) : List String :=
  (db.skills.filter (fun s => s.email = email)).map (fun s => s.skill)

/-- Model of `App.ListPatients` (`SELECT * FROM patients`). -/
def ListPatients (db : AppDB) : List PatientRow := db.patients

/-- Model of `App.ListCaregivers` (`SELECT * FROM caregivers`). -/
def ListCaregivers (db : AppDB) : List CaregiverRow := db.caregivers

/-- Model of `App.AddMessageWithRecipient`: append a `chat_history` row with
the store-assigned timestamp. -/
def AddMessageWithRecipient (db : AppDB) (email role content recipient : String)
    (now : Nat) : AppDB :=
  { db with chatHistory := db.chatHistory ++ [⟨email, role, content, now, recipient⟩] }

/-! ### SQL LIKE and lowercasing -/

/-- Character-wise lowercasing, the model of SQL `LOWER` (ASCII letters; the
program only ever feeds it ASCII location strings). -/
def lowerL (cs : List Char) : List Char := cs.map Char.toLower

/-- SQL `LIKE` pattern matching: `%` matches any character sequence, `_`
matches exactly one character, any other character matches itself.
Structural recursion on the pattern; the `%` case tries every suffix of the
candidate string. -/
def likeM : List Char → List Char → Bool
  | [], s => s.isEmpty
  | p :: ps, s =>
    if p = '%' then s.tails.any (fun t => likeM ps t)
    else
      match s with
      | [] => false
      | c :: s' => (p = '_' || p = c) && likeM ps s'

/-- Plain substring containment, the specification's reading of the matching
criterion ("lowercased provider location contains the lowercased seeker
location as a substring"): some suffix of `s` starts with `sub`. -/
def containsSub (s sub : List Char) : Bool :=
  s.tails.any (fun t => sub.isPrefixOf t)

/-- A pattern fragment with no `LIKE` metacharacters. -/
def noWild (cs : List Char) : Bool :=
  cs.all (fun c => !(c = '%') && !(c = '_'))

/-! ### Matching engine -/

/-- `ORDER BY rate_expectations ASC` as a sort relation. -/
def rateLe (a b : CaregiverRow) : Prop := a.rate ≤ b.rate

instance : DecidableRel rateLe := fun a b => inferInstanceAs (Decidable (a.rate ≤ b.rate))

instance : IsTotal CaregiverRow rateLe := ⟨fun a b => le_total a.rate b.rate⟩

instance : IsTrans CaregiverRow rateLe := ⟨fun _ _ _ h h' => le_trans h h'⟩

/-- `ORDER BY budget DESC` as a sort relation. -/
def budgetGe (a b : PatientRow) : Prop := b.budget ≤ a.budget

instance : DecidableRel budgetGe := fun a b => inferInstanceAs (Decidable (b.budget ≤ a.budget))

instance : IsTotal PatientRow budgetGe := ⟨fun a b => le_total b.budget a.budget⟩

instance : IsTrans PatientRow budgetGe := ⟨fun _ _ _ h h' => le_trans h' h⟩

/-- The row filter of the caregiver-matching query:
`LOWER(location) LIKE LOWER('%' + patientLocation + '%') AND
rate_expectations <= budget`. -/
def caregiverMatches (patientLocation : String) (budget : ℚ)
    (c : CaregiverRow) : Bool :=
  likeM (lowerL ('%' :: patientLocation.toList ++ ['%'])) (lowerL c.location.toList)
    && decide (c.rate ≤ budget)

/-- Model of `App.FindMatchingCaregivers`: look up the patient row by email
(the Go loop scans every matching row, keeping the last; `email` is the
table's primary key), fail with "patient not found" when there is none, then
filter the caregivers by location pattern and budget and order ascending by
rate. -/
def FindMatchingCaregivers (db : AppDB) (patientEmail : String) :
    Except String (List CaregiverRow) :=
  match (db.patients.filter (fun p => p.email = patientEmail)).getLast? with
  | none => Except.error "patient not found"
  | some patient =>
    Except.ok (List.insertionSort rateLe
      (db.caregivers.filter (caregiverMatches patient.location patient.budget)))

/-- The row filter of the patient-matching query:
`LOWER(location) LIKE LOWER('%' + caregiverLocation + '%') AND budget >= rate`. -/
def patientMatches (caregiverLocation : String) (rate : ℚ)
    (p : PatientRow) : Bool :=
  likeM (lowerL ('%' :: caregiverLocation.toList ++ ['%'])) (lowerL p.location.toList)
    && decide (rate ≤ p.budget)

/-- Model of `App.FindMatchingPatients`, the mirror of
`FindMatchingCaregivers`, ordered descending by budget. -/
def FindMatchingPatients (db : AppDB) (caregiverEmail : String) :
    Except String (List PatientRow) :=
  match (db.caregivers.filter (fun c => c.email = caregiverEmail)).getLast? with
  | none => Except.error "caregiver not found"
  | some caregiver =>
    Except.ok (List.insertionSort budgetGe
      (db.patients.filter (patientMatches caregiver.location caregiver.rate)))

/-! ### Dynamic query builder -/

/-- A `(field, operator, value)` filter (struct `QueryFilter`). -/
structure QueryFilter where
  field : String
  operator : String
  value : GoVal
deriving Repr

/-- A declarative query request (struct `DynamicQuery`). -/
structure DynamicQuery where
  table : String
  fields : List String
  filters : List QueryFilter
  orderBy : String
  limit : Int
deriving Repr

/-- The table whitelist of `BuildDynamicQuery`. -/
def allowedTables : List String := ["caregivers", "patients", "matches", "skills"]

/-- The column whitelist of `BuildDynamicQuery`. -/
def allowedFields : List String :=
  ["email", "experience", "location", "availability", "specializations",
   "rate_expectations", "certifications", "created_at", "care_needs",
   "schedule_requirements", "budget", "special_requirements", "status",
   "skill"]

/-- The operator whitelist of `BuildDynamicQuery`. -/
def allowedOperators : List String :=
  ["=", ">", "<", ">=", "<=", "LIKE", "NOT LIKE", "IN", "NOT IN",
   "IS NULL", "IS NOT NULL"]

/-- `strings.TrimSuffix`: drop one occurrence of the suffix if present. -/
def trimSuffix (s suffix : String) : String :=
  if suffix.toList.isSuffixOf s.toList then
    ⟨s.toList.take (s.toList.length - suffix.toList.length)⟩
  else s

/-- The filter loop of `BuildDynamicQuery`: a non-whitelisted field or
operator is skipped; `IS NULL` / `IS NOT NULL` contribute a condition but no
parameter; every other operator contributes a condition with a `?`
placeholder and one positional parameter. -/
def buildFilters (filters : List QueryFilter) (acc : List String × List GoVal) :
    List String × List GoVal :=
  match filters with
  | [] => acc
  | f :: rest =>
    if allowedFields.contains f.field && allowedOperators.contains f.operator then
      if f.operator = "IS NULL" || f.operator = "IS NOT NULL" then
        buildFilters rest (acc.1 ++ [f.field ++ " " ++ f.operator], acc.2)
      else
        buildFilters rest (acc.1 ++ [f.field ++ " " ++ f.operator ++ " ?"], acc.2 ++ [f.value])
    else
      buildFilters rest acc

/-- Model of `App.BuildDynamicQuery`: whitelist the table name (any other
value fails before constructing anything), project only whitelisted columns,
keep only whitelisted filters, then assemble the query text with `?`
placeholders and the positional parameter list. -/
def BuildDynamicQuery (q : DynamicQuery) : Except String (String × List GoVal) :=
  if !allowedTables.contains q.table then
    Except.error ("invalid table name: " ++ q.table)
  else
    let selectFields :=
      if q.fields.length > 0 then
        let validFields := q.fields.filter (fun f => allowedFields.contains f)
        if validFields.length > 0 then String.intercalate ", " validFields else "*"
      else "*"
    let (whereConditions, params) := buildFilters q.filters ([], [])
    let query := "SELECT " ++ selectFields ++ " FROM " ++ q.table
    let query := if whereConditions.length > 0 then
        query ++ " WHERE " ++ String.intercalate " AND " whereConditions
      else query
    let query := if q.orderBy ≠ "" && allowedFields.contains (trimSuffix q.orderBy " DESC") then
        query ++ " ORDER BY " ++ q.orderBy
      else query
    let query := if q.limit > 0 then query ++ " LIMIT " ++ toString q.limit else query
    Except.ok (query, params)

/-- Model of `App.ExecuteDynamicQuery`.  The store is a collaborator, passed
in as `run`; the second component of the result records every query text
actually sent to the store, so "executes no query" is the trace being empty. -/
def ExecuteDynamicQuery
    (run : String → List GoVal → Except String (List (List (String × GoVal))))
    (q : DynamicQuery) :
    Except String (List (List (String × GoVal))) × List String :=
  match BuildDynamicQuery q with
  | Except.error e => (Except.error e, [])
  | Except.ok (query, params) =>
    match run query params with
    | Except.error e => (Except.error ("failed to execute query: " ++ e), [query])
    | Except.ok rows => (Except.ok rows, [query])

/-! ### Response formatting -/

/-- Go `fmt.Sprintf "%.2f"` on the rational model of a float: two decimal
digits.  (Go rounds half to even; the model rounds half up — the two differ
only at exact half-cents, which no claim exercises.) -/
def format2f (q : ℚ) : String :=
  let sign := if q < 0 then "-" else ""
  let n : ℤ := round (|q| * 100)
  let ip := n / 100
  let fp := n % 100
  sign ++ toString ip ++ "." ++ (if fp < 10 then "0" else "") ++ toString fp

/-- Model of `formatPatientList`. -/
def formatPatientList (db : AppDB) (patients : List PatientRow) : String :=
  if patients.length = 0 then "<p>No matching patients found.</p>"
  else
    "<h3>Matching Patients</h3>" ++ "<ul class=\x27matches-list\x27>" ++
    String.join (patients.map (fun p =>
      let skills := GetSkills db p.email
      "<li class=\x27match-item\x27>" ++
      "<img src=\x27static/images/default-avatar.png\x27 alt=\x27Patient Avatar\x27 class=\x27match-avatar\x27>" ++
      "<div class=\x27match-details\x27>" ++
      "<strong>" ++ p.name ++ "</strong><br>" ++
      "<span>✉️ Email: " ++ p.email ++ "</span><br>" ++
      "<span>📍 Location: " ++ p.location ++ "</span><br>" ++
      "<span>💰 Budget: $" ++ format2f p.budget ++ "/hour</span><br>" ++
      "<span>🕒 Schedule: " ++ p.scheduleRequirements ++ "</span><br>" ++
      "<span>ℹ️ Care Needs: " ++ p.careNeeds ++ "</span><br>" ++
      "<span>📱 Contact: " ++ p.phoneNumber ++ "</span><br>" ++
      (if skills.length > 0 then
        "<span>🎯 Skills needed: " ++ String.intercalate ", " skills ++ "</span>"
      else "") ++
      "</div></li>")) ++
    "</ul>"

/-- Model of `formatCaregiverList`. -/
def formatCaregiverList (db : AppDB) (caregivers : List CaregiverRow) : String :=
  if caregivers.length = 0 then "<p>No matching caregivers found.</p>"
  else
    "<h3>Matching Caregivers</h3>" ++ "<ul class=\x27matches-list\x27>" ++
    String.join (caregivers.map (fun c =>
      let skills := GetSkills db c.email
      "<li class=\x27match-item\x27>" ++
      "<img src=\x27static/images/default-avatar.png\x27 class=\x27match-avatar\x27>" ++
      "<div class=\x27match-details\x27>" ++
      "<strong>" ++ c.name ++ "</strong><br>" ++
      "<span>✉️ Email: " ++ c.email ++ "</span><br>" ++
      "<span>📍 Location: " ++ c.location ++ "</span><br>" ++
      "<span>💰 Rate: $" ++ format2f c.rate ++ "/hour</span><br>" ++
      "<span>🕒 Availability: " ++ c.availability ++ "</span><br>" ++
      "<span>📚 Experience: " ++ c.experience ++ "</span><br>" ++
      "<span>🎓 Certifications: " ++ c.certifications ++ "</span><br>" ++
      (if skills.length > 0 then
        "<span>🎯 Skills: " ++ String.intercalate ", " skills ++ "</span>"
      else "") ++
      "</div></li>")) ++
    "</ul>"

/-! ### Conversation orchestrator -/

/-- A model-issued function invocation; `arguments` is the raw JSON text
(`json.RawMessage`). -/
structure FunctionCallM where
  name : String
  arguments : String
deriving Repr

/-- One choice's message. -/
structure ChoiceMsg where
  role : String
  content : String
  functionCall : Option FunctionCallM
deriving Repr

/-- The model's response. -/
structure ChatResponseM where
  choices : List ChoiceMsg
deriving Repr

/-- The caregiver record built by the `store_caregiver` dispatch branch: the
email is the session participant's email, never the model-supplied argument;
every other field comes from the argument map with zero-value defaults.  (Go
leaves `CreatedAt` at its zero value here; `StoreCaregiver` overwrites it.) -/
def caregiverFromArgs (email : String) (args : List (String × GoVal)) :
    CaregiverRow :=
  { email := email,
    name := getStringArg args "name" "",
    experience := getStringArg args "experience" "",
    location := getStringArg args "location" "",
    availability := getStringArg args "availability" "",
    specializations := getStringArg args "specializations" "",
    rate := getFloatArg args "rate_expectations" 0,
    certifications := getStringArg args "certifications" "",
    createdAt := 0 }

/-- The patient record built by the `store_patient` dispatch branch; like
`caregiverFromArgs`, the email is the session participant's email. -/
def patientFromArgs (email : String) (args : List (String × GoVal)) (now : Nat) :
    PatientRow :=
  { email := email,
    name := getStringArg args "name" "",
    careNeeds := getStringArg args "care_needs" "",
    location := getStringArg args "location" "",
    scheduleRequirements := getStringArg args "schedule_requirements" "",
    budget := getFloatArg args "budget" 0,
    specialRequirements := getStringArg args "special_requirements" "",
    phoneNumber := getStringArg args "phone_number" "",
    createdAt := now }

/-- The function-call dispatch switch of `handleOpenAIResponse`: returns the
updated store and the response text ("" for an unhandled function name; the
pure store cannot fail, so the Go storage-error branches are unreachable). -/
def dispatchFunctionCall (fc : FunctionCallM) (args : List (String × GoVal))
    (email : String) (db : AppDB) (now : Nat) : AppDB × String :=
  match fc.name with
  | "list_patients" => (db, formatPatientList db (ListPatients db))
  | "list_caregivers" => (db, formatCaregiverList db (ListCaregivers db))
  | "find_matching_caregivers" =>
    match FindMatchingCaregivers db email with
    | Except.error e => (db, "Error finding matches: " ++ e)
    | Except.ok cs => (db, formatCaregiverList db cs)
  | "find_matching_patients" =>
    match FindMatchingPatients db email with
    | Except.error e => (db, "Error finding matches: " ++ e)
    | Except.ok ps => (db, formatPatientList db ps)
  | "store_caregiver" =>
    (StoreCaregiver db (caregiverFromArgs email args) now,
     "Successfully registered as a caregiver.")
  | "store_patient" =>
    (StorePatient db (patientFromArgs email args now) now,
     "Successfully registered as a patient.")
  | _ => (db, "")

/-- Model of `handleOpenAIResponse`: with no choices, return success and do
nothing.  Otherwise take the first choice; if it carries a function call,
parse the arguments (an unparsable payload aborts the turn with an error and
no write), dispatch it, and append the response text as an assistant turn
when it is non-empty; afterwards append the choice's plain content as an
assistant turn when it is non-empty. -/
def handleOpenAIResponse (resp : ChatResponseM) (email : String) (db : AppDB)
    (now : Nat) : Except String AppDB :=
  match resp.choices with
  | [] => Except.ok db
  | choice :: _ =>
    match choice.functionCall with
    | some fc =>
      match GetArguments fc.arguments with
      | Except.error e => Except.error ("error parsing function arguments: " ++ e)
      | Except.ok args =>
        let (db1, response) := dispatchFunctionCall fc args email db now
        let db2 := if response ≠ "" then
            AddMessageWithRecipient db1 email "assistant" response "admin" now
          else db1
        let db3 := if choice.content ≠ "" then
            AddMessageWithRecipient db2 email "assistant" choice.content "admin" now
          else db2
        Except.ok db3
    | none =>
      let db3 := if choice.content ≠ "" then
          AddMessageWithRecipient db email "assistant" choice.content "admin" now
        else db
      Except.ok db3

/-! ### Concrete data and helper definitions for the claims -/

/-- Concrete rows for exercising claim C1. -/
def c1Caregiver35 : CaregiverRow :=
  ⟨"cg35@example.com", "Alice", "", "New York, NY", "", "", 35, "", 0⟩
def c1Caregiver50 : CaregiverRow :=
  ⟨"cg50@example.com", "Bob", "", "New York, NY", "", "", 50, "", 0⟩
def c1Patient : PatientRow :=
  ⟨"p1@example.com", "Pat", "", "New York, NY", "", 40, "", "", 0⟩
def c1DB : AppDB := ⟨[c1Caregiver35, c1Caregiver50], [c1Patient], [], []⟩
/-- Concrete rows for exercising claim C6. -/
def c6Patient : PatientRow :=
  ⟨"p6@example.com", "Pat", "", "New York, NY", "", 40, "", "", 0⟩
def c6DB : AppDB :=
  ⟨[⟨"c6@example.com", "Carl", "", "Boston, MA", "", "", 35, "", 0⟩],
   [c6Patient], [], []⟩
/-- The update applied to one caregiver row by `StoreCaregiver`'s update
path. -/
def cgUpdate (c : CaregiverRow) (r : CaregiverRow) : CaregiverRow :=
  if r.email = c.email then
    { r with name := c.name, experience := c.experience,
             location := c.location, availability := c.availability,
             specializations := c.specializations, rate := c.rate,
             certifications := c.certifications }
  else r
/-- Concrete rows for exercising claim C5. -/
def c5Caregiver : CaregiverRow :=
  ⟨"c5@example.com", "Eve", "certified", "Austin, TX", "weekdays", "elderly", 35, "CNA", 0⟩
def c5DB : AppDB :=
  ⟨[⟨"c5@example.com", "Eve", "", "Austin, TX", "", "", 35, "", 3⟩], [], [], []⟩
/-- The two submissions of claim C2, as the model would send them: the first
populates `location`, the second carries only `rate_expectations`. -/
def c2Raw1 : String :=
  "\x7b\"name\": \"Alice\", \"location\": \"New York, NY\", \"rate_expectations\": 20\x7d"
def c2Raw2 : String := "\x7b\"rate_expectations\": 35\x7d"
def c2Resp1 : ChatResponseM := ⟨[⟨"assistant", "", some ⟨"store_caregiver", c2Raw1⟩⟩]⟩
def c2Resp2 : ChatResponseM := ⟨[⟨"assistant", "", some ⟨"store_caregiver", c2Raw2⟩⟩]⟩
/-- Concrete rows for exercising claim C2's amended statement. -/
def c2First : CaregiverRow :=
  ⟨"c2@example.com", "Alice", "", "New York, NY", "", "", 20, "", 0⟩
def c2Second : CaregiverRow :=
  ⟨"c2@example.com", "", "", "", "", "", 35, "", 0⟩
/-- The shape-(c) payload: a JSON string whose content is an object with a
single `arguments` key holding an array of strings. -/
def c3WrapperRaw : String := "\"\x7b\\\"arguments\\\": [\\\"cook\\\"]\x7d\""

/-- A filter the builder keeps: field and operator both whitelisted
(specification-side restatement of the loop's guard). -/
def keptFilter (f : QueryFilter) : Bool :=
  allowedFields.contains f.field && allowedOperators.contains f.operator

/-- The two operators that bind no value. -/
def isNullOp (f : QueryFilter) : Bool :=
  f.operator = "IS NULL" || f.operator = "IS NOT NULL"

/-- A filter that contributes exactly one positional parameter. -/
def takesParam (f : QueryFilter) : Bool := keptFilter f && !(isNullOp f)

/-- The WHERE fragment a kept filter contributes; the value never appears,
only a `?` placeholder. -/
def whereCondOf (f : QueryFilter) : String :=
  if isNullOp f then f.field ++ " " ++ f.operator
  else f.field ++ " " ++ f.operator ++ " ?"

/-- The non-numeric `GoVal` shapes of claim C9 ("any other type"). -/
def isNonNumericGoVal : GoVal → Bool
  | GoVal.vNull => true
  | GoVal.vBool _ => true
  | GoVal.vArr _ => true
  | GoVal.vObj _ => true
  | _ => false

/-- A dynamic query naming the non-whitelisted table `users` (claim C7). -/
def c7Query : DynamicQuery :=
  { table := "users", fields := ["email"], filters := [], orderBy := "", limit := 0 }

/-- A store stub for exercising `ExecuteDynamicQuery` (claim C7). -/
def c7Run : String → List GoVal → Except String (List (List (String × GoVal))) :=
  fun _ _ => Except.ok []

/-- A dynamic query mixing kept, parameterless and skipped filters
(claim C8). -/
def c8Query : DynamicQuery :=
  { table := "caregivers", fields := ["email"],
    filters := [⟨"location", "LIKE", GoVal.vStr "%NY%"⟩,
                ⟨"bogus_column", "=", GoVal.vStr "x"⟩,
                ⟨"rate_expectations", "IS NULL", GoVal.vNull⟩,
                ⟨"budget", "DROP TABLE", GoVal.vStr "evil"⟩],
    orderBy := "", limit := 0 }

/-- The same filters as `c8Query` with different values (claim C8's
value-independence). -/
def c8Filters2 : List QueryFilter :=
  [⟨"location", "LIKE", GoVal.vStr "%Boston%"⟩,
   ⟨"bogus_column", "=", GoVal.vNum 1⟩,
   ⟨"rate_expectations", "IS NULL", GoVal.vBool true⟩,
   ⟨"budget", "DROP TABLE", GoVal.vStr "other"⟩]

/-- Raw argument payloads differing only in the model-supplied `email`
argument (claim C10). -/
def c10Raw1 : String :=
  "\x7b\"email\": \"evil@example.com\", \"name\": \"Mallory\", \"location\": \"New York, NY\"\x7d"

def c10Raw2 : String :=
  "\x7b\"name\": \"Mallory\", \"location\": \"New York, NY\"\x7d"

/-- The argument maps the two payloads decode to. -/
def c10Args1 : List (String × GoVal) :=
  [("email", GoVal.vStr "evil@example.com"), ("name", GoVal.vStr "Mallory"),
   ("location", GoVal.vStr "New York, NY")]

def c10Args2 : List (String × GoVal) :=
  [("name", GoVal.vStr "Mallory"), ("location", GoVal.vStr "New York, NY")]

/-! ### Helper lemmas about LIKE patterns -/

/-- The pattern `%` alone matches every string. -/
theorem likeM_pct (s : List Char) : likeM ['%'] s = true := by
  have h : [] ∈ s.tails := (List.mem_tails _ _).mpr List.nil_suffix
  have he : likeM ['%'] s = s.tails.any (fun t => likeM [] t) := by simp [likeM]
  rw [he, List.any_eq_true]
  exact ⟨[], h, rfl⟩
/-- A metacharacter-free pattern followed by `%` matches exactly the strings
it is a prefix of. -/
theorem likeM_lit : ∀ (l t : List Char), noWild l = true →
    (likeM (l ++ ['%']) t = true ↔ l.isPrefixOf t = true) := by
  intro l
  induction l with
  | nil =>
    intro t _
    simpa using likeM_pct t
  | cons c l' ih =>
    intro t hl
    simp only [noWild, List.all_cons, Bool.and_eq_true, Bool.not_eq_true',
      decide_eq_false_iff_not] at hl
    obtain ⟨⟨hcp, hcu⟩, hl'⟩ := hl
    have hl'' : noWild l' = true := by simpa [noWild] using hl'
    cases t with
    | nil =>
      simp [likeM, hcp]
    | cons d t' =>
      simp only [List.cons_append, likeM, if_neg hcp, List.isPrefixOf,
        Bool.and_eq_true, decide_eq_true_eq]
      constructor
      · rintro ⟨hcd, hrest⟩
        rcases Bool.or_eq_true_iff.mp hcd with h1 | h1
        · exact absurd (of_decide_eq_true h1) hcu
        · exact ⟨beq_iff_eq.mpr (of_decide_eq_true h1), (ih t' hl'').mp hrest⟩
      · rintro ⟨hcd, hrest⟩
        refine ⟨Bool.or_eq_true_iff.mpr (Or.inr (decide_eq_true (beq_iff_eq.mp hcd))),
          (ih t' hl'').mpr hrest⟩
/-- For a metacharacter-free fragment `l`, the pattern `%l%` is exactly
substring containment. -/
theorem likeM_containsSub (l s : List Char) (hl : noWild l = true) :
    likeM ('%' :: (l ++ ['%'])) s = containsSub s l := by
  simp only [likeM, if_pos rfl, containsSub]
  rcases hac : s.tails.any (fun t => likeM (l ++ ['%']) t) with _ | _
  · rcases hbc : s.tails.any (fun t => l.isPrefixOf t) with _ | _
    · rfl
    · exfalso
      rw [List.any_eq_true] at hbc
      obtain ⟨t, ht, hp⟩ := hbc
      have : s.tails.any (fun t => likeM (l ++ ['%']) t) = true :=
        List.any_eq_true.mpr ⟨t, ht, (likeM_lit l t hl).mpr hp⟩
      rw [hac] at this
      exact Bool.false_ne_true this
  · rw [List.any_eq_true] at hac
    obtain ⟨t, ht, hp⟩ := hac
    exact (List.any_eq_true.mpr ⟨t, ht, (likeM_lit l t hl).mp hp⟩).symm
/-- `LOWER` on a `%`-wrapped pattern lowers only the fragment. -/
theorem lowerL_pattern (cs : List Char) :
    lowerL ('%' :: cs ++ ['%']) = '%' :: lowerL cs ++ ['%'] := by
  simp only [lowerL, List.map_cons, List.map_append]
  rfl
/-- The caregiver-matching filter, written with the lowered pattern pulled
apart. -/
theorem caregiverMatches_iff (loc : String) (budget : ℚ) (c : CaregiverRow) :
    caregiverMatches loc budget c = true
    ↔ likeM ('%' :: (lowerL loc.toList ++ ['%'])) (lowerL c.location.toList) = true
      ∧ c.rate ≤ budget := by
  unfold caregiverMatches
  rw [lowerL_pattern, List.cons_append]
  simp [Bool.and_eq_true, decide_eq_true_iff]
/-- Claim C1 (amended): for every patient email with a row,
`FindMatchingCaregivers` returns exactly the caregiver rows whose lowercased
location matches the SQL LIKE pattern `%` + lowercased patient location + `%`
and whose rate is at most the budget, ordered ascending by rate; when the
patient's location contains no LIKE metacharacter (`%` or `_`), the pattern
match is exactly substring containment, as the original claim stated. -/
theorem claim_C1_like_matching (db : AppDB) (em : String) (patient : PatientRow)
    (rs : List CaregiverRow)
    (h1 : (db.patients.filter (fun p => p.email = em)).getLast? = some patient)
    (h2 : FindMatchingCaregivers db em = Except.ok rs) :
    List.Sorted rateLe rs
    ∧ (∀ c, c ∈ rs ↔ c ∈ db.caregivers
        ∧ likeM ('%' :: (lowerL patient.location.toList ++ ['%']))
            (lowerL c.location.toList) = true
        ∧ c.rate ≤ patient.budget)
    ∧ (noWild (lowerL patient.location.toList) = true →
       ∀ c, c ∈ rs ↔ c ∈ db.caregivers
        ∧ containsSub (lowerL c.location.toList) (lowerL patient.location.toList) = true
        ∧ c.rate ≤ patient.budget) := by
  unfold FindMatchingCaregivers at h2
  rw [h1] at h2
  simp only [Except.ok.injEq] at h2
  subst h2
  refine ⟨List.sorted_insertionSort rateLe _, fun c => ?_, fun hw c => ?_⟩
  · rw [List.mem_insertionSort, List.mem_filter, caregiverMatches_iff]
  · rw [List.mem_insertionSort, List.mem_filter, caregiverMatches_iff,
      likeM_containsSub _ _ hw]
/-- Claim C1, counterexample to the claim as stated: with a patient whose
location is the single character `%`, the query's LIKE pattern `%%%` matches a
caregiver located at `x`, yet `x` does not contain `%` as a substring — the
result set is not "exactly those caregiver rows whose lowercased location
contains the patient's lowercased location as a substring". -/
theorem claim_C1_substring_counterexample :
    FindMatchingCaregivers
      ⟨[⟨"c@example.com", "Carl", "", "x", "", "", 10, "", 0⟩],
       [⟨"p@example.com", "Pat", "", "%", "", 100, "", "", 0⟩], [], []⟩
      "p@example.com"
      = Except.ok [⟨"c@example.com", "Carl", "", "x", "", "", 10, "", 0⟩]
    ∧ containsSub (lowerL "x".toList) (lowerL "%".toList) = false := by
  exact ⟨rfl, rfl⟩
/-- Claim C1, witness: on wildcard-free example data (one in-budget caregiver
at the patient's location and one over-budget caregiver), the amended theorem
instantiates and every hypothesis holds by computation. -/
theorem claim_C1_like_matching_witness :
    List.Sorted rateLe [c1Caregiver35]
    ∧ (∀ c, c ∈ [c1Caregiver35] ↔ c ∈ c1DB.caregivers
        ∧ likeM ('%' :: (lowerL c1Patient.location.toList ++ ['%']))
            (lowerL c.location.toList) = true
        ∧ c.rate ≤ c1Patient.budget)
    ∧ (noWild (lowerL c1Patient.location.toList) = true →
       ∀ c, c ∈ [c1Caregiver35] ↔ c ∈ c1DB.caregivers
        ∧ containsSub (lowerL c.location.toList) (lowerL c1Patient.location.toList) = true
        ∧ c.rate ≤ c1Patient.budget) :=
  claim_C1_like_matching c1DB "p1@example.com" c1Patient [c1Caregiver35] rfl rfl
/-- Claim C6: `FindMatchingCaregivers` fails with the not-found error when no
patient row carries the email, and returns an empty, non-error list when the
patient exists but no caregiver satisfies the matching criteria. -/
theorem claim_C6_notfound_vs_empty (db : AppDB) (em : String) :
    ((∀ p ∈ db.patients, p.email ≠ em) →
      FindMatchingCaregivers db em = Except.error "patient not found")
    ∧ (∀ patient, (db.patients.filter (fun p => p.email = em)).getLast? = some patient →
        (∀ c ∈ db.caregivers, caregiverMatches patient.location patient.budget c = false) →
        FindMatchingCaregivers db em = Except.ok []) := by
  constructor
  · intro h
    unfold FindMatchingCaregivers
    have hnil : db.patients.filter (fun p => p.email = em) = [] :=
      List.filter_eq_nil_iff.mpr (by intro p hp; simpa using h p hp)
    rw [hnil]
    rfl
  · intro patient h1 h2
    unfold FindMatchingCaregivers
    rw [h1]
    have hnil : db.caregivers.filter (caregiverMatches patient.location patient.budget) = [] :=
      List.filter_eq_nil_iff.mpr (by intro c hc; simp [h2 c hc])
    show Except.ok (List.insertionSort rateLe
      (db.caregivers.filter (caregiverMatches patient.location patient.budget))) = Except.ok []
    rw [hnil]
    rfl
/-- Claim C6, witness: an unknown email yields the not-found error; a patient
whose location matches no caregiver yields the empty list. -/
theorem claim_C6_notfound_vs_empty_witness :
    FindMatchingCaregivers c6DB "absent@example.com" = Except.error "patient not found"
    ∧ FindMatchingCaregivers c6DB "p6@example.com" = Except.ok [] :=
  ⟨(claim_C6_notfound_vs_empty c6DB "absent@example.com").1 (by decide),
   (claim_C6_notfound_vs_empty c6DB "p6@example.com").2 c6Patient rfl (by decide)⟩
/-- `StoreCaregiver` on an existing email rewrites every row through
`cgUpdate`. -/
theorem storeCaregiver_update_shape (db : AppDB) (c : CaregiverRow) (now : Nat)
    (h : db.caregivers.any (fun r => r.email = c.email) = true) :
    (StoreCaregiver db c now).caregivers = db.caregivers.map (cgUpdate c) := by
  unfold StoreCaregiver
  rw [if_pos h]
  rfl
/-- `StoreCaregiver` on a fresh email appends one row stamped `now`. -/
theorem storeCaregiver_insert_shape (db : AppDB) (c : CaregiverRow) (now : Nat)
    (h : db.caregivers.any (fun r => r.email = c.email) = false) :
    (StoreCaregiver db c now).caregivers = db.caregivers ++ [{ c with createdAt := now }] := by
  unfold StoreCaregiver
  rw [h]
  simp
/-- `cgUpdate` never changes a row's email. -/
theorem cgUpdate_email (c r : CaregiverRow) : (cgUpdate c r).email = r.email := by
  unfold cgUpdate
  by_cases hb : r.email = c.email <;> simp [hb]
/-- `cgUpdate` never changes a row's creation timestamp. -/
theorem cgUpdate_createdAt (c r : CaregiverRow) : (cgUpdate c r).createdAt = r.createdAt := by
  unfold cgUpdate
  by_cases hb : r.email = c.email <;> simp [hb]
/-- Claim C5: storing the same caregiver twice leaves exactly one row with
that email whose `created_at` is the first submission's timestamp, and the
update path of the upsert never changes any row's `created_at`. -/
theorem claim_C5_upsert_created_at (db : AppDB) (c : CaregiverRow)
    (now1 now2 : Nat) (db' : AppDB) (c' : CaregiverRow) (now' : Nat)
    (h : ∀ r ∈ db.caregivers, r.email ≠ c.email)
    (h' : ∃ r ∈ db'.caregivers, r.email = c'.email) :
    ((StoreCaregiver (StoreCaregiver db c now1) c now2).caregivers.filter
        (fun r => r.email = c.email)).map (fun r => r.createdAt) = [now1]
    ∧ (StoreCaregiver db' c' now').caregivers.map (fun r => r.createdAt)
        = db'.caregivers.map (fun r => r.createdAt) := by
  constructor
  · have hany1 : db.caregivers.any (fun r => r.email = c.email) = false :=
      List.any_eq_false.mpr (by intro r hr; simpa using h r hr)
    have hs1 : (StoreCaregiver db c now1).caregivers
        = db.caregivers ++ [{ c with createdAt := now1 }] :=
      storeCaregiver_insert_shape db c now1 hany1
    have hany2 : (StoreCaregiver db c now1).caregivers.any
        (fun r => r.email = c.email) = true := by
      rw [hs1]
      exact List.any_eq_true.mpr ⟨{ c with createdAt := now1 }, by simp, by simp⟩
    rw [storeCaregiver_update_shape _ c now2 hany2, hs1, List.filter_map,
      List.map_map, List.filter_append]
    have hl : db.caregivers.filter
        ((fun r => decide (r.email = c.email)) ∘ cgUpdate c) = [] := by
      refine List.filter_eq_nil_iff.mpr ?_
      intro r hr
      simp [Function.comp, cgUpdate_email, h r hr]
    have hr1 : ([{ c with createdAt := now1 }] : List CaregiverRow).filter
        ((fun r => decide (r.email = c.email)) ∘ cgUpdate c)
        = [{ c with createdAt := now1 }] := by
      simp [Function.comp, cgUpdate_email]
    rw [hl, hr1]
    simp [Function.comp, cgUpdate_createdAt]
  · obtain ⟨r0, hr0, he0⟩ := h'
    have hany : db'.caregivers.any (fun r => r.email = c'.email) = true :=
      List.any_eq_true.mpr ⟨r0, hr0, by simpa using he0⟩
    rw [storeCaregiver_update_shape db' c' now' hany, List.map_map]
    exact List.map_eq_map_iff.mpr (by intro r _; simp [Function.comp, cgUpdate_createdAt])
/-- Claim C5, witness: storing the same profile twice into an empty store at
times 5 and 9 leaves one row stamped 5; an update at time 11 leaves the
existing stamp 3 untouched. -/
theorem claim_C5_upsert_created_at_witness :
    ((StoreCaregiver (StoreCaregiver emptyDB c5Caregiver 5) c5Caregiver 9).caregivers.filter
        (fun r => r.email = c5Caregiver.email)).map (fun r => r.createdAt) = [5]
    ∧ (StoreCaregiver c5DB c5Caregiver 11).caregivers.map (fun r => r.createdAt)
        = c5DB.caregivers.map (fun r => r.createdAt) :=
  claim_C5_upsert_created_at emptyDB c5Caregiver 5 9 c5DB c5Caregiver 11
    (by decide) (by decide)
/-- Claim C2, counterexample to the claim as stated: after the first
submission stores location "New York, NY" and the second submission carries
only `rate_expectations`, the surviving row has `location = ""` — the prior
location has been blanked out, not preserved, so location and rate are not
both populated. -/
theorem claim_C2_merge_counterexample :
    ((handleOpenAIResponse c2Resp1 "cg@example.com" emptyDB 1).bind
      (fun db1 => handleOpenAIResponse c2Resp2 "cg@example.com" db1 2)).toOption.map
      (fun db => db.caregivers.map (fun r => (r.location, r.rate)))
      = some [("", 35)]
    ∧ (some [(("" : String), (35 : ℚ))] ≠ some [("New York, NY", (35 : ℚ))]) := by
  exact ⟨by decide, by decide⟩
/-- Claim C2 (amended): the upsert is replace-on-write — a re-submission for
an existing email overwrites every mutable field with the new submission's
values (fields the new submission leaves at their zero value are blanked),
and only `created_at` survives from the first submission; exactly one row
remains. -/
theorem claim_C2_replace_on_write (db : AppDB) (c1 c2 : CaregiverRow)
    (now1 now2 : Nat)
    (h : ∀ r ∈ db.caregivers, r.email ≠ c1.email)
    (he : c2.email = c1.email) :
    (StoreCaregiver (StoreCaregiver db c1 now1) c2 now2).caregivers.filter
      (fun r => r.email = c1.email) = [{ c2 with createdAt := now1 }] := by
  have hany1 : db.caregivers.any (fun r => r.email = c1.email) = false :=
    List.any_eq_false.mpr (by intro r hr; simpa using h r hr)
  have hs1 : (StoreCaregiver db c1 now1).caregivers
      = db.caregivers ++ [{ c1 with createdAt := now1 }] :=
    storeCaregiver_insert_shape db c1 now1 hany1
  have hany2 : (StoreCaregiver db c1 now1).caregivers.any
      (fun r => r.email = c2.email) = true := by
    rw [hs1]
    exact List.any_eq_true.mpr ⟨{ c1 with createdAt := now1 }, by simp, by simp [he]⟩
  rw [storeCaregiver_update_shape _ c2 now2 hany2, hs1, List.filter_map,
    List.filter_append]
  have hl : db.caregivers.filter
      ((fun r => decide (r.email = c1.email)) ∘ cgUpdate c2) = [] := by
    refine List.filter_eq_nil_iff.mpr ?_
    intro r hr
    simp [Function.comp, cgUpdate_email, h r hr]
  have hr1 : ([{ c1 with createdAt := now1 }] : List CaregiverRow).filter
      ((fun r => decide (r.email = c1.email)) ∘ cgUpdate c2)
      = [{ c1 with createdAt := now1 }] := by
    simp [Function.comp, cgUpdate_email]
  rw [hl, hr1]
  simp [cgUpdate, he.symm]
/-- Claim C2, witness for the amended statement. -/
theorem claim_C2_replace_on_write_witness :
    (StoreCaregiver (StoreCaregiver emptyDB c2First 1) c2Second 2).caregivers.filter
      (fun r => r.email = c2First.email) = [{ c2Second with createdAt := 1 }] :=
  claim_C2_replace_on_write emptyDB c2First c2Second 1 2 (by decide) rfl
/-- Claim C3, counterexample to the claim as stated: the extraction layer
does not unwrap the `arguments` wrapper of the third encoding — the result
map still carries the `arguments` key with the array as its value, rather
than the array being "returned directly" as the claim requires. -/
theorem claim_C3_unwrap_counterexample :
    GetArguments c3WrapperRaw
      = Except.ok [("arguments", GoVal.vArr [GoVal.vStr "cook"])]
    ∧ (lookupKV [("arguments", GoVal.vArr [GoVal.vStr "cook"])] "arguments").isSome = true := by
  exact ⟨rfl, rfl⟩
/-- Claim C3 (amended): the direct-object and double-encoded-string shapes of
the same JSON object normalize to the same argument map; the
`\x7barguments:[...]\x7d` wrapper string is handled as just another
double-encoded object, so its wrapper key is preserved in the resulting map
(never unwrapped to a bare array). -/
theorem claim_C3_shape_tolerance (rawA rawB inner : String)
    (kvs : List (String × GoVal))
    (hA : jparse rawA = some (GoVal.vObj kvs))
    (hB : jparse rawB = some (GoVal.vStr inner))
    (hI : jparse inner = some (GoVal.vObj kvs)) :
    GetArguments rawA = Except.ok kvs ∧ GetArguments rawB = Except.ok kvs := by
  constructor
  · unfold GetArguments
    rw [hA]
  · unfold GetArguments
    rw [hB]
    show getArgumentsFromStr inner = Except.ok kvs
    unfold getArgumentsFromStr
    rw [hI]
/-- Claim C3, witness: the object `\x7b"arguments": ["cook"]\x7d` encoded
directly and as a double-encoded string normalizes to the same map. -/
theorem claim_C3_shape_tolerance_witness :
    GetArguments "\x7b\"arguments\": [\"cook\"]\x7d"
      = Except.ok [("arguments", GoVal.vArr [GoVal.vStr "cook"])]
    ∧ GetArguments c3WrapperRaw
      = Except.ok [("arguments", GoVal.vArr [GoVal.vStr "cook"])] :=
  claim_C3_shape_tolerance "\x7b\"arguments\": [\"cook\"]\x7d" c3WrapperRaw
    "\x7b\"arguments\": [\"cook\"]\x7d" [("arguments", GoVal.vArr [GoVal.vStr "cook"])]
    rfl rfl rfl
/-- Claim C4, counterexample to the claim as stated: a response with zero
choices, and a response whose only choice has neither content nor a function
call, leave the store untouched — no fallback prompt is substituted and no
assistant turn is appended (the chat history stays empty). -/
theorem claim_C4_fallback_counterexample :
    handleOpenAIResponse ⟨[]⟩ "user@example.com" emptyDB 0 = Except.ok emptyDB
    ∧ handleOpenAIResponse ⟨[⟨"assistant", "", none⟩]⟩ "user@example.com" emptyDB 0
        = Except.ok emptyDB
    ∧ emptyDB.chatHistory = [] := by
  exact ⟨rfl, rfl, rfl⟩
/-- Claim C4 (amended): when the model's response has zero choices, or its
first choice has neither content nor a function call, `handleOpenAIResponse`
returns success with the store unchanged — no fallback prompt is substituted
and no assistant reply is appended. -/
theorem claim_C4_no_fallback (resp : ChatResponseM) (email : String)
    (db : AppDB) (now : Nat)
    (h : ∀ c ∈ resp.choices.head?, c.functionCall = none ∧ c.content = "") :
    handleOpenAIResponse resp email db now = Except.ok db := by
  match hc : resp.choices with
  | [] =>
    unfold handleOpenAIResponse
    rw [hc]
  | ⟨role, content, fcall⟩ :: rest =>
    obtain ⟨hfc, hct⟩ := h ⟨role, content, fcall⟩ (by rw [hc]; rfl)
    dsimp only at hfc hct
    subst hfc
    subst hct
    unfold handleOpenAIResponse
    rw [hc]
    simp
/-- Claim C4, witness: a single choice with empty content and no function
call leaves the store unchanged. -/
theorem claim_C4_no_fallback_witness :
    handleOpenAIResponse ⟨[⟨"assistant", "", none⟩]⟩ "user@example.com" emptyDB 0
      = Except.ok emptyDB :=
  claim_C4_no_fallback ⟨[⟨"assistant", "", none⟩]⟩ "user@example.com" emptyDB 0
    (by intro c hcm; cases hcm; exact ⟨rfl, rfl⟩)

/-- Claim C7: a dynamic query naming a table outside the whitelist fails with
the invalid-table error before any query text is constructed, and
`ExecuteDynamicQuery` sends nothing to the store (its query trace is empty). -/
theorem claim_C7_table_whitelist (q : DynamicQuery)
    (run : String → List GoVal → Except String (List (List (String × GoVal))))
    (h : allowedTables.contains q.table = false) :
    BuildDynamicQuery q = Except.error ("invalid table name: " ++ q.table)
    ∧ (ExecuteDynamicQuery run q).2 = []
    ∧ (ExecuteDynamicQuery run q).1 = Except.error ("invalid table name: " ++ q.table) := by
  have hb : BuildDynamicQuery q = Except.error ("invalid table name: " ++ q.table) := by
    unfold BuildDynamicQuery
    rw [h]
    rfl
  refine ⟨hb, ?_, ?_⟩ <;> unfold ExecuteDynamicQuery <;> rw [hb]

/-- Claim C7, witness: the table `users` is rejected and no query reaches the
store. -/
theorem claim_C7_table_whitelist_witness :
    BuildDynamicQuery c7Query = Except.error ("invalid table name: " ++ c7Query.table)
    ∧ (ExecuteDynamicQuery c7Run c7Query).2 = []
    ∧ (ExecuteDynamicQuery c7Run c7Query).1
        = Except.error ("invalid table name: " ++ c7Query.table) :=
  claim_C7_table_whitelist c7Query c7Run (by decide)

/-- The filter loop in closed form: kept filters contribute their WHERE
fragments in order; value-taking kept filters contribute their values in
order. -/
theorem buildFilters_spec (fs : List QueryFilter) (acc : List String × List GoVal) :
    buildFilters fs acc
      = (acc.1 ++ (fs.filter keptFilter).map whereCondOf,
         acc.2 ++ (fs.filter takesParam).map (fun f => f.value)) := by
  induction fs generalizing acc with
  | nil => simp [buildFilters]
  | cons f rest ih =>
    by_cases hk : keptFilter f = true
    · by_cases hn : isNullOp f = true
      · have h1 : buildFilters (f :: rest) acc
            = buildFilters rest (acc.1 ++ [f.field ++ " " ++ f.operator], acc.2) := by
          conv_lhs => unfold buildFilters
          rw [show (allowedFields.contains f.field && allowedOperators.contains f.operator)
              = true from hk]
          rw [show (decide (f.operator = "IS NULL") || decide (f.operator = "IS NOT NULL"))
              = true from hn]
          simp
        rw [h1, ih]
        have htp : takesParam f = false := by simp [takesParam, hk, hn]
        have hn' : f.operator = "IS NULL" ∨ f.operator = "IS NOT NULL" := by
          simpa [isNullOp] using hn
        simp [List.filter_cons, hk, htp, whereCondOf, isNullOp, hn']
      · have h1 : buildFilters (f :: rest) acc
            = buildFilters rest
                (acc.1 ++ [f.field ++ " " ++ f.operator ++ " ?"], acc.2 ++ [f.value]) := by
          conv_lhs => unfold buildFilters
          rw [show (allowedFields.contains f.field && allowedOperators.contains f.operator)
              = true from hk]
          rw [show (decide (f.operator = "IS NULL") || decide (f.operator = "IS NOT NULL"))
              = false from (by simpa [isNullOp] using hn)]
          simp
        rw [h1, ih]
        have htp : takesParam f = true := by simp [takesParam, hk, hn]
        have hn' : ¬(f.operator = "IS NULL" ∨ f.operator = "IS NOT NULL") := by
          simpa [isNullOp] using hn
        simp [List.filter_cons, hk, htp, whereCondOf, isNullOp, hn']
    · have h1 : buildFilters (f :: rest) acc = buildFilters rest acc := by
        conv_lhs => unfold buildFilters
        rw [show (allowedFields.contains f.field && allowedOperators.contains f.operator)
            = false from (by simpa [keptFilter] using hk)]
        simp
      rw [h1, ih]
      have htp : takesParam f = false := by simp [takesParam, hk]
      simp [List.filter_cons, hk, htp]

/-- Keeping a filter and its WHERE fragment depend only on the filter's field
and operator, never on its value. -/
theorem whereOf_shape (fs1 fs2 : List QueryFilter)
    (hs : fs1.map (fun f => (f.field, f.operator))
        = fs2.map (fun f => (f.field, f.operator))) :
    (fs1.filter keptFilter).map whereCondOf = (fs2.filter keptFilter).map whereCondOf := by
  induction fs1 generalizing fs2 with
  | nil =>
    cases fs2 with
    | nil => rfl
    | cons g u => simp at hs
  | cons f t ih =>
    cases fs2 with
    | nil => simp at hs
    | cons g u =>
      simp only [List.map_cons, List.cons.injEq, Prod.mk.injEq] at hs
      obtain ⟨⟨hfield, hop⟩, ht'⟩ := hs
      have hkept : keptFilter f = keptFilter g := by simp [keptFilter, hfield, hop]
      have hcond : whereCondOf f = whereCondOf g := by
        simp [whereCondOf, isNullOp, hfield, hop]
      by_cases hk : keptFilter f = true
      · rw [List.filter_cons_of_pos hk, List.filter_cons_of_pos (hkept ▸ hk),
          List.map_cons, List.map_cons, hcond, ih u ht']
      · rw [List.filter_cons_of_neg (by simpa using hk),
          List.filter_cons_of_neg (by simp [← hkept]; simpa using hk), ih u ht']

/-- Claim C8: for a whitelisted table the builder never errors; the
positional parameter list is exactly the values of the kept, value-taking
filters in order (one per filter, none for `IS NULL` / `IS NOT NULL`,
non-whitelisted filters silently skipped); and the generated query text is
unchanged when every filter value is replaced — values are only ever bound,
never concatenated into the text. -/
theorem claim_C8_filter_binding (q : DynamicQuery) (filters2 : List QueryFilter)
    (ht : allowedTables.contains q.table = true)
    (hs : q.filters.map (fun f => (f.field, f.operator))
        = filters2.map (fun f => (f.field, f.operator))) :
    (∃ sql, BuildDynamicQuery q
        = Except.ok (sql, (q.filters.filter takesParam).map (fun f => f.value)))
    ∧ (BuildDynamicQuery q).map Prod.fst
        = (BuildDynamicQuery { q with filters := filters2 }).map Prod.fst := by
  constructor
  · unfold BuildDynamicQuery
    rw [ht]
    rw [buildFilters_spec]
    simp
  · unfold BuildDynamicQuery
    rw [ht]
    show (Except.ok _).map Prod.fst = (Except.ok _).map Prod.fst
    rw [buildFilters_spec, buildFilters_spec]
    simp only [Except.map, List.nil_append]
    rw [whereOf_shape q.filters filters2 hs]

/-- Claim C8, witness: a concrete query with a kept `LIKE` filter (one
parameter), a skipped unknown column, a parameterless `IS NULL`, and a
skipped unknown operator; replacing every value leaves the text unchanged. -/
theorem claim_C8_filter_binding_witness :
    (∃ sql, BuildDynamicQuery c8Query
        = Except.ok (sql, (c8Query.filters.filter takesParam).map (fun f => f.value)))
    ∧ (BuildDynamicQuery c8Query).map Prod.fst
        = (BuildDynamicQuery { c8Query with filters := c8Filters2 }).map Prod.fst :=
  claim_C8_filter_binding c8Query c8Filters2 (by decide) (by decide)

/-- Claim C9: a numeric field holding a float, an integer, or a numeric
string all normalize to the same rational value, and an absent key, a
non-numeric type or an unparsable string resolve to the caller-supplied
default. -/
theorem claim_C9_numeric_coercion (a1 a2 a3 a4 a5 a6 : List (String × GoVal))
    (key s t : String) (d q : ℚ) (n : ℤ) (v : GoVal) :
    (lookupKV a1 key = some (GoVal.vNum q) → getFloatArg a1 key d = q)
    ∧ (lookupKV a2 key = some (GoVal.vInt n) → (n : ℚ) = q → getFloatArg a2 key d = q)
    ∧ (lookupKV a3 key = some (GoVal.vStr s) → parseGoFloat s = some q →
        getFloatArg a3 key d = q)
    ∧ (lookupKV a4 key = none → getFloatArg a4 key d = d)
    ∧ (lookupKV a5 key = some v → isNonNumericGoVal v = true → getFloatArg a5 key d = d)
    ∧ (lookupKV a6 key = some (GoVal.vStr t) → parseGoFloat t = none →
        getFloatArg a6 key d = d) := by
  refine ⟨?_, ?_, ?_, ?_, ?_, ?_⟩
  · intro h
    unfold getFloatArg
    rw [h]
  · intro h hn
    unfold getFloatArg
    rw [h]
    show (n : ℚ) = q
    exact hn
  · intro h hp
    unfold getFloatArg
    rw [h]
    show (match parseGoFloat s with | some f => f | none => d) = q
    rw [hp]
  · intro h
    unfold getFloatArg
    rw [h]
  · intro h hv
    unfold getFloatArg
    rw [h]
    cases v <;> simp_all [isNonNumericGoVal]
  · intro h hp
    unfold getFloatArg
    rw [h]
    show (match parseGoFloat t with | some f => f | none => d) = d
    rw [hp]

/-- Claim C9, witness: `40`, the integer `40` and the string `"40"` all
coerce to `40`; an absent key, a boolean and the string `"forty"` give the
default `7`. -/
theorem claim_C9_numeric_coercion_witness :
    getFloatArg [("budget", GoVal.vNum 40)] "budget" 7 = 40
    ∧ getFloatArg [("budget", GoVal.vInt 40)] "budget" 7 = 40
    ∧ getFloatArg [("budget", GoVal.vStr "40")] "budget" 7 = 40
    ∧ getFloatArg [] "budget" 7 = 7
    ∧ getFloatArg [("budget", GoVal.vBool true)] "budget" 7 = 7
    ∧ getFloatArg [("budget", GoVal.vStr "forty")] "budget" 7 = 7 := by
  obtain ⟨h1, h2, h3, h4, h5, h6⟩ :=
    claim_C9_numeric_coercion [("budget", GoVal.vNum 40)] [("budget", GoVal.vInt 40)]
      [("budget", GoVal.vStr "40")] [] [("budget", GoVal.vBool true)]
      [("budget", GoVal.vStr "forty")] "budget" "40" "forty" 7 40 40 (GoVal.vBool true)
  exact ⟨h1 rfl, h2 rfl (by decide), h3 rfl (by decide), h4 rfl, h5 rfl rfl, h6 rfl rfl⟩

/-- Claim C10: dispatching `store_caregiver` / `store_patient` uses the
session participant's email — two argument maps that agree on every key
except `email` (present or absent) produce identical stores and identical
appended turns. -/
theorem claim_C10_session_email (db : AppDB) (email content fname raw1 raw2 : String)
    (now : Nat) (m1 m2 : List (String × GoVal))
    (hf : fname = "store_caregiver" ∨ fname = "store_patient")
    (h1 : GetArguments raw1 = Except.ok m1)
    (h2 : GetArguments raw2 = Except.ok m2)
    (hagree : ∀ k, k ≠ "email" → lookupKV m1 k = lookupKV m2 k) :
    handleOpenAIResponse ⟨[⟨"assistant", content, some ⟨fname, raw1⟩⟩]⟩ email db now
      = handleOpenAIResponse ⟨[⟨"assistant", content, some ⟨fname, raw2⟩⟩]⟩ email db now := by
  have hstr : ∀ k dflt, k ≠ "email" → getStringArg m1 k dflt = getStringArg m2 k dflt := by
    intro k dflt hk
    unfold getStringArg
    rw [hagree k hk]
  have hflt : ∀ k dflt, k ≠ "email" → getFloatArg m1 k dflt = getFloatArg m2 k dflt := by
    intro k dflt hk
    unfold getFloatArg
    rw [hagree k hk]
  have hd : dispatchFunctionCall ⟨fname, raw1⟩ m1 email db now
      = dispatchFunctionCall ⟨fname, raw2⟩ m2 email db now := by
    rcases hf with hf | hf <;> subst hf
    · have hcg : caregiverFromArgs email m1 = caregiverFromArgs email m2 := by
        unfold caregiverFromArgs
        rw [hstr "name" "" (by decide), hstr "experience" "" (by decide),
          hstr "location" "" (by decide), hstr "availability" "" (by decide),
          hstr "specializations" "" (by decide), hflt "rate_expectations" 0 (by decide),
          hstr "certifications" "" (by decide)]
      show (StoreCaregiver db (caregiverFromArgs email m1) now,
          "Successfully registered as a caregiver.")
        = (StoreCaregiver db (caregiverFromArgs email m2) now,
          "Successfully registered as a caregiver.")
      rw [hcg]
    · have hp : patientFromArgs email m1 now = patientFromArgs email m2 now := by
        unfold patientFromArgs
        rw [hstr "name" "" (by decide), hstr "care_needs" "" (by decide),
          hstr "location" "" (by decide), hstr "schedule_requirements" "" (by decide),
          hflt "budget" 0 (by decide), hstr "special_requirements" "" (by decide),
          hstr "phone_number" "" (by decide)]
      show (StorePatient db (patientFromArgs email m1 now) now,
          "Successfully registered as a patient.")
        = (StorePatient db (patientFromArgs email m2 now) now,
          "Successfully registered as a patient.")
      rw [hp]
  unfold handleOpenAIResponse
  dsimp only
  rw [h1, h2]
  dsimp only
  rw [hd]

/-- Claim C10, witness: payloads differing only in a model-supplied `email`
argument (here a hostile `evil@example.com`) produce identical outcomes. -/
theorem claim_C10_session_email_witness :
    handleOpenAIResponse ⟨[⟨"assistant", "", some ⟨"store_caregiver", c10Raw1⟩⟩]⟩
        "real@example.com" emptyDB 4
      = handleOpenAIResponse ⟨[⟨"assistant", "", some ⟨"store_caregiver", c10Raw2⟩⟩]⟩
        "real@example.com" emptyDB 4 :=
  claim_C10_session_email emptyDB "real@example.com" "" "store_caregiver"
    c10Raw1 c10Raw2 4 c10Args1 c10Args2 (Or.inl rfl) rfl rfl
    (by
      intro k hk
      unfold c10Args1 c10Args2 lookupKV
      rw [if_neg (fun he => hk he.symm)]
      rfl)
